import Mathlib

/-!
Verification development for the `pgxscan` row-to-struct mapping engine
(`structscan.go`).  The Go code is shallowly embedded: `reflect` types and
values become the inductives `GoType` / `GoVal`, the external
`reflectx.Mapper.TraversalsByName` collaborator becomes the bundled
`Mapper` structure, and a `pgx.Rows` cursor becomes the static `Cursor`
record (its reported column names, the rows it will yield, and the sticky
iteration error visible through `Err()` once `Next()` returns `false`).
Each public scan function (`ScanStruct`, `ScanFlat`, `ScanStructs`) is a
pure function from a cursor and a destination to a `ScanResult`, which
records the returned status, the destination value at exit, and effect
counters: how many times `Close` ran, how many rows were advanced past
(`Next()` returning `true`), and how many `Scan` (decode) calls were made.
-/

namespace Pgxscan

/-- Go reflection kinds, restricted to the kinds the scanner inspects.
`invalidK` is the kind of the zero `reflect.Value` (e.g. `Elem()` of a nil
pointer). -/
inductive Kind where
  | ptrK
  | structK
  | sliceK
  | scalarK
  | invalidK
deriving DecidableEq, Repr

/-- Go types as the scanner sees them: pointer types, named struct types
(field types listed in declaration order; tags live in the external
mapper), slice types, and named scalar (leaf) types. -/
inductive GoType where
  | ptrTo (t : GoType)
  | structOf (nm : String) (fields : List GoType)
  | sliceOf (t : GoType)
  | scalarT (nm : String)
deriving Repr

/-- Model of `reflect.Type.Kind()`. -/
def GoType.kind : GoType → Kind
  | .ptrTo _ => .ptrK
  | .structOf _ _ => .structK
  | .sliceOf _ => .sliceK
  | .scalarT _ => .scalarK

/-- Model of `reflect.Type.Elem()` for pointer and slice types (the scanner only
calls it after a kind check, so other kinds may return anything). -/
def GoType.elem : GoType → GoType
  | .ptrTo t => t
  | .sliceOf t => t
  | _ => .scalarT "invalid"

/-- Rendering of a type name as `fmt` prints it (`%s` on a `reflect.Type`),
used in error messages. -/
def GoType.name : GoType → String
  | .ptrTo t => "*" ++ t.name
  | .structOf nm _ => nm
  | .sliceOf t => "[]" ++ t.name
  | .scalarT nm => nm

/-- Go values over a scalar universe `α`: pointers (possibly nil), struct
values (field values in order), non-nil slices, the nil slice, and
scalars. -/
inductive GoVal (α : Type) where
  | ptr (v : Option (GoVal α))
  | structV (fields : List (GoVal α))
  | sliceV (elems : List (GoVal α))
  | sliceNil
  | scalar (a : α)
deriving Repr

instance {α : Type} : Inhabited (GoVal α) := ⟨.ptr none⟩

/-- Model of `reflect.Value.Kind()`. -/
def GoVal.kind {α : Type} : GoVal α → Kind
  | .ptr _ => .ptrK
  | .structV _ => .structK
  | .sliceV _ => .sliceK
  | .sliceNil => .sliceK
  | .scalar _ => .scalarK

/-- Model of `reflect.Value.IsNil()` (only called on pointer kinds). -/
def GoVal.isNil {α : Type} : GoVal α → Bool
  | .ptr none => true
  | _ => false

/-- Model of `reflect.Value.Elem().Kind()` for a pointer value: dereferencing a nil
pointer yields the zero `reflect.Value`, whose kind is `Invalid`. -/
def GoVal.elemKind {α : Type} : GoVal α → Kind
  | .ptr (some v) => v.kind
  | _ => .invalidK

/-- Model of `reflect.Value.Elem()` of a non-nil pointer (only reached guarded). -/
def GoVal.elemVal {α : Type} : GoVal α → GoVal α
  | .ptr (some v) => v
  | v => v

/-- Model of `reflect.Indirect`: dereference one pointer level if possible. -/
def indirectVal {α : Type} : GoVal α → GoVal α
  | .ptr (some v) => v
  | v => v

/-- Model of `v.Elem().Set(w)` for a pointer value `v`: replace the pointee.  Only
used after the scanner has established `v` is a non-nil pointer; on any
other value it is the identity (the Go original would panic there, which
the scan functions model separately). -/
def setElem {α : Type} (v w : GoVal α) : GoVal α :=
  match v with
  | .ptr (some _) => .ptr (some w)
  | v => v

mutual

/-- The zero value of a type (`reflect.New(t).Elem()`): nil pointers, zero
fields, the nil slice, the scalar default. -/
def GoType.zero {α : Type} [Inhabited α] : GoType → GoVal α
  | .ptrTo _ => .ptr none
  | .structOf _ fs => .structV (GoType.zeroList fs)
  | .sliceOf _ => .sliceNil
  | .scalarT _ => .scalar default

/-- Zero values of a field-type list, in order. -/
def GoType.zeroList {α : Type} [Inhabited α] : List GoType → List (GoVal α)
  | [] => []
  | t :: ts => GoType.zero t :: GoType.zeroList ts

end

/-- One result row as the cursor will deliver it to `Scan`: either the
columns' decoded values (aligned with the reported column list) or the
decode error `Scan` would return for this row. -/
inductive RowData (α : Type) where
  | vals (xs : List α)
  | scanFailure (e : String)
deriving Repr

/-- A `pgx.Rows` cursor, statically: the reported column names
(`FieldDescriptions()`), the rows `Next()` will yield in order, and the
sticky error `Err()` reports once iteration stops (`none` = clean
exhaustion). -/
structure Cursor (α : Type) where
  cols : List String
  rows : List (RowData α)
  finalErr : Option String

/-- The errors the scanner returns, as an inductive carrying exactly the
data the corresponding Go error message interpolates. -/
inductive ScanError where
  /-- Message "dest must be a pointer to a struct, not a value" -/
  | notAPointer
  /-- Message "dest is nil pointer" -/
  | nilPointer
  /-- The distinguished `pgx.ErrNoRows` -/
  | noRows
  /-- Message `fmt.Errorf("missing column %q in dest %s", col, destType)` -/
  | missingColumn (col : String) (destType : String)
  /-- Message "argument is not a struct" (from `fieldsByTraversal`) -/
  | notAStruct
  /-- Message "invalid input, expected a pointer to a slice" (from `ScanFlat`) -/
  | invalidFlatDest
  /-- Message `fmt.Errorf("expected a pointer to a slice, got %s", destType)` -/
  | expectedPtrToSlice (destType : String)
  /-- Message "must return a pointer to a new struct, not a value, ..." -/
  | newNotPointer
  /-- Message "nil pointer returned to ScanStructs destination" -/
  | newNilPointer
  /-- Wrap `errors.Wrap(err, "failed to parse a row")` (from `ScanFlat`) -/
  | rowParse (e : String)
  /-- a `rows.Scan` error surfaced unwrapped -/
  | decode (e : String)
  /-- the cursor's sticky iteration error, surfaced from `rows.Err()` -/
  | cursorIter (e : String)
deriving DecidableEq, Repr

/-- How one scan call ended: normal return with `nil` error, normal return
with an error value, or a runtime panic. -/
inductive Status where
  | ok
  | err (e : ScanError)
  | panicked (msg : String)
deriving DecidableEq, Repr

/-- The observable outcome of one scan call: final status, the destination
value at exit, and effect counters (`closes` = calls to `rows.Close()`,
`rowsRead` = calls to `rows.Next()` that returned true, `decodes` = calls
to `rows.Scan`). -/
structure ScanResult (α : Type) where
  status : Status
  dest : GoVal α
  closes : Nat
  rowsRead : Nat
  decodes : Nat
deriving Repr

/-- The external `reflectx` field resolver (`TraversalsByName`): for a
destination type and a column-name list it yields one access path per
column, in order; an empty path means the column matches no field tag.
The resolver is an external collaborator of the scanner, so it is kept
abstract here, bundled with its documented contract that it returns
exactly one traversal per requested name. -/
structure Mapper where
  fn : GoType → List String → List (List Nat)
  len_eq : ∀ t cols, (fn t cols).length = cols.length

/-- Model of `missingFields(traversals)` (structscan.go:196-203): the Go loop
returns the index of the first empty traversal together with a non-nil
error, or `(0, nil)` when none is empty.  Modelled as the index of the
first empty traversal, `none` when every traversal is non-empty. -/
def missingFields : List (List Nat) → Option Nat
  | [] => none
  | t :: rest => if t.length = 0 then some 0 else (missingFields rest).map (· + 1)

/-- Model of `rowMetadata(r, v)` (structscan.go:179-194): collect the reported
column names, resolve them against `v`'s type, and fail with
`missing column %q in dest %s` at the first column whose traversal is
empty.  `rcols` is `r.FieldDescriptions()` rendered to names, `vType` is
`v.Type()`. -/
def rowMetadata (m : Mapper) (rcols : List String) (vType : GoType) :
    Except ScanError (List String) :=
  let fields := m.fn vType rcols
  match missingFields fields with
  | some f => .error (.missingColumn (rcols.getD f "") vType.name)
  | none => .ok rcols

/-- One scan target prepared by `fieldsByTraversal` for one column:
a discard cell (`new(interface{})`), a pointer-kind leaf field passed
directly (`f.Interface()`), or the address of a non-pointer leaf field
(`f.Addr().Interface()`). -/
inductive Target where
  | discard
  | fieldLoc (path : List Nat)
  | fieldAddr (path : List Nat)
deriving DecidableEq, Repr

/-- The type reached by walking an access path, mirroring
`reflectx.FieldByIndexes`: each step dereferences at most one pointer
level and then selects a struct field; the leaf is not dereferenced. -/
def typeAtPath : GoType → List Nat → GoType
  | t, [] => t
  | t, i :: rest =>
    match (match t with | .ptrTo t2 => t2 | t2 => t2) with
    | .structOf _ fs => typeAtPath (fs.getD i (.scalarT "invalid")) rest
    | _ => .scalarT "invalid"

/-- The target built for one traversal (structscan.go:211-223): empty
traversal means discard; a pointer-kind leaf field is passed directly;
any other leaf contributes its address. -/
def buildTarget (destT : GoType) (tr : List Nat) : Target :=
  if tr.length = 0 then .discard
  else if (typeAtPath destT tr).kind = Kind.ptrK then .fieldLoc tr
  else .fieldAddr tr

/-- Model of `fieldsByTraversal(v, traversals, values)` (structscan.go:205-226):
after one indirection `v` must be a struct, then one target per traversal
is produced in order.  `destT` is `v`'s type, used for the leaf kind
test. -/
def fieldsByTraversal {α : Type} (destT : GoType) (v : GoVal α)
    (traversals : List (List Nat)) : Except ScanError (List Target) :=
  if (indirectVal v).kind ≠ Kind.structK then .error .notAStruct
  else .ok (traversals.map (buildTarget destT))

/-- Write `x` into the slot reached by `path` from `(t, v)`, with the
navigation discipline of `reflectx.FieldByIndexes`: per step, one
`reflect.Indirect` (allocating a zero pointee for a nil pointer) followed
by a struct field selection.  Writing with an empty path replaces the
slot itself. -/
def writeAt {α : Type} [Inhabited α] : GoType → GoVal α → List Nat → GoVal α → GoVal α
  | _, _, [], x => x
  | .structOf _ fs, .structV vs, i :: rest, x =>
    .structV (vs.set i
      (writeAt (fs.getD i (.scalarT "invalid")) (vs.getD i default) rest x))
  | .ptrTo (.structOf _ fs), .ptr (some (.structV vs)), i :: rest, x =>
    .ptr (some (.structV (vs.set i
      (writeAt (fs.getD i (.scalarT "invalid")) (vs.getD i default) rest x))))
  | .ptrTo (.structOf _ fs), .ptr none, i :: rest, x =>
    .ptr (some (.structV ((GoType.zeroList fs).set i
      (writeAt (fs.getD i (.scalarT "invalid"))
        (GoType.zero (fs.getD i (.scalarT "invalid"))) rest x))))
  | _, v, _ :: _, _ => v

/-- The effect of the driver decoding one column value `x` into one
target on the destination value `v` of type `t`: discards are dropped; an
addressed leaf receives the scalar in place; a pointer-kind leaf is left
pointing at a freshly decoded value. -/
def applyTarget {α : Type} [Inhabited α] (t : GoType) (v : GoVal α) :
    Target × α → GoVal α
  | (.discard, _) => v
  | (.fieldAddr p, x) => writeAt t v p (.scalar x)
  | (.fieldLoc p, x) => writeAt t v p (.ptr (some (.scalar x)))

/-- The effect of `rows.Scan(values...)` succeeding: every column value
is written through its target, in column order. -/
def applyTargets {α : Type} [Inhabited α] (t : GoType) (v : GoVal α)
    (targets : List Target) (xs : List α) : GoVal α :=
  (targets.zip xs).foldl (fun acc tx => applyTarget t acc tx) v

/-- Model of `rows.Scan(values...)` with one target per column: the row's decode
error if it has one, an argument-count error if the target count does not
match the row width, else the destination with all values written. -/
def structScan {α : Type} [Inhabited α] (t : GoType) (v : GoVal α)
    (targets : List Target) (row : RowData α) : Except String (GoVal α) :=
  match row with
  | .scanFailure e => .error e
  | .vals xs =>
    if xs.length = targets.length then .ok (applyTargets t v targets xs)
    else .error "number of field descriptions must equal number of arguments"

/-- Model of `rows.Scan(valRow.Interface())` in flat mode: one target, so the row
must carry exactly one column value. -/
def flatDecode {α : Type} : RowData α → Except String α
  | .scanFailure e => .error e
  | .vals [x] => .ok x
  | .vals _ => .error "number of field descriptions must equal number of arguments"

/-- Model of `ScanStruct(r, dest)` (structscan.go:52-84).  `destT` is the static
type of `dest`.  `defer r.Close()` makes `closes = 1` on every exit
path. -/
def ScanStruct {α : Type} [Inhabited α] (m : Mapper) (destT : GoType)
    (dest : GoVal α) (r : Cursor α) : ScanResult α :=
  if dest.kind ≠ Kind.ptrK then ⟨.err .notAPointer, dest, 1, 0, 0⟩
  else if dest.isNil then ⟨.err .nilPointer, dest, 1, 0, 0⟩
  else match r.rows with
  | [] =>
    match r.finalErr with
    | some e => ⟨.err (.cursorIter e), dest, 1, 0, 0⟩
    | none => ⟨.err .noRows, dest, 1, 0, 0⟩
  | row :: _ =>
    match rowMetadata m r.cols destT with
    | .error e => ⟨.err e, dest, 1, 1, 0⟩
    | .ok columns =>
      match fieldsByTraversal destT dest (m.fn destT columns) with
      | .error e => ⟨.err e, dest, 1, 1, 0⟩
      | .ok targets =>
        match structScan destT dest targets row with
        | .error e => ⟨.err (.decode e), dest, 1, 1, 1⟩
        | .ok newDest => ⟨.ok, newDest, 1, 1, 1⟩

/-- The outcome of one row-iteration loop: accumulated elements or the
error that aborted it, plus the loop's own effect counters. -/
structure LoopOut (α : Type) where
  out : Except ScanError (List (GoVal α))
  rowsRead : Nat
  decodes : Nat

/-- Model of the `for r.Next()` loop of `ScanFlat` (structscan.go:99-105):
decode each row into a fresh element and append it to the local slice;
a decode error aborts with the wrap `failed to parse a row`. -/
def flatLoop {α : Type} : List (RowData α) → List (GoVal α) → LoopOut α
  | [], acc => ⟨.ok acc, 0, 0⟩
  | row :: rest, acc =>
    match flatDecode row with
    | .error e => ⟨.error (.rowParse e), 1, 1⟩
    | .ok x =>
      let res := flatLoop rest (acc ++ [GoVal.scalar x])
      ⟨res.out, res.rowsRead + 1, res.decodes + 1⟩

/-- Model of `ScanFlat(r, dest)` (structscan.go:86-109): after the value-level
shape check, the loop accumulates into a local slice; the local slice is
stored through `dest` *after* the loop, and only then is `r.Err()`
returned. -/
def ScanFlat {α : Type} [Inhabited α] (dest : GoVal α) (r : Cursor α) :
    ScanResult α :=
  if ¬(dest.kind = Kind.ptrK ∧ dest.elemKind = Kind.sliceK) then
    ⟨.err .invalidFlatDest, dest, 1, 0, 0⟩
  else
    match flatLoop r.rows [] with
    | ⟨.error e, rr, dc⟩ => ⟨.err e, dest, 1, rr, dc⟩
    | ⟨.ok acc, rr, dc⟩ =>
      match r.finalErr with
      | some e => ⟨.err (.cursorIter e), setElem dest (.sliceV acc), 1, rr, dc⟩
      | none => ⟨.ok, setElem dest (.sliceV acc), 1, rr, dc⟩

/-- Model of `v.Elem()` of a non-nil pointer value, as used on `destVal` when
appending (`destVal.Elem()`). -/
def elemOf {α : Type} : GoVal α → GoVal α
  | .ptr (some v) => v
  | v => v

/-- Model of the `for r.Next()` loop of `ScanStructs` (structscan.go:138-172).
`rcols` is the cursor's reported column list, `cols` the loop-carried
`columns` variable (empty until the first row resolves it), `elemT` the
declared slice element type, `structT` the struct type a fresh instance
is allocated from (`*structTypeToCreate`). -/
def structsLoop {α : Type} [Inhabited α] (m : Mapper) (rcols : List String)
    (elemT structT : GoType) :
    List String → List (GoVal α) → List (RowData α) → LoopOut α
  | _, acc, [] => ⟨.ok acc, 0, 0⟩
  | cols, acc, row :: rest =>
    let destVal : GoVal α := .ptr (some (GoType.zero structT))
    if destVal.kind ≠ Kind.ptrK then ⟨.error .newNotPointer, 1, 0⟩
    else if destVal.isNil then ⟨.error .newNilPointer, 1, 0⟩
    else
      match (if cols.length = 0
             then rowMetadata m rcols (GoType.ptrTo structT)
             else .ok cols) with
      | .error e => ⟨.error e, 1, 0⟩
      | .ok cols2 =>
        match fieldsByTraversal (GoType.ptrTo structT) destVal
            (m.fn (GoType.ptrTo structT) cols2) with
        | .error e => ⟨.error e, 1, 0⟩
        | .ok targets =>
          match structScan (GoType.ptrTo structT) destVal targets row with
          | .error e => ⟨.error (.decode e), 1, 1⟩
          | .ok newVal =>
            let appended :=
              if newVal.kind = Kind.ptrK ∧ newVal.elemKind = elemT.kind then
                acc ++ [elemOf newVal]
              else acc ++ [newVal]
            let res := structsLoop m rcols elemT structT cols2 appended rest
            ⟨res.out, res.rowsRead + 1, res.decodes + 1⟩

/-- Model of `ScanStructs(r, dest)` (structscan.go:112-177).  The shape check is
purely type-level (`reflect.TypeOf(dest)`), so a nil slice pointer passes
it; `reflect.ValueOf(dest).Elem().Set(resultSlice)` then panics on the
zero `reflect.Value`.  The store into `dest` happens before `r.Err()` is
consulted. -/
def ScanStructs {α : Type} [Inhabited α] (m : Mapper) (destT : GoType)
    (dest : GoVal α) (r : Cursor α) : ScanResult α :=
  if ¬(destT.kind = Kind.ptrK ∧ destT.elem.kind = Kind.sliceK) then
    ⟨.err (.expectedPtrToSlice destT.name), dest, 1, 0, 0⟩
  else
    match structsLoop m r.cols destT.elem.elem
        (if destT.elem.elem.kind = Kind.ptrK then destT.elem.elem.elem
         else destT.elem.elem) [] [] r.rows with
    | ⟨.error e, rr, dc⟩ => ⟨.err e, dest, 1, rr, dc⟩
    | ⟨.ok acc, rr, dc⟩ =>
      match dest with
      | .ptr (some _) =>
        match r.finalErr with
        | some e => ⟨.err (.cursorIter e), setElem dest (.sliceV acc), 1, rr, dc⟩
        | none => ⟨.ok, setElem dest (.sliceV acc), 1, rr, dc⟩
      | _ => ⟨.panicked "reflect: call of reflect.Value.Set on zero Value", dest, 1, rr, dc⟩

/-- The struct instance one row populates: a fresh zero instance of
`structT` with every column value written through its resolved target
(the one-row decode pipeline of the multi-record loop). -/
def decodeRowStruct {α : Type} [Inhabited α] (m : Mapper) (structT : GoType)
    (cols : List String) (xs : List α) : GoVal α :=
  let targets := (m.fn (GoType.ptrTo structT) cols).map
    (buildTarget (GoType.ptrTo structT))
  applyTargets (GoType.ptrTo structT) (.ptr (some (GoType.zero structT)))
    targets xs

/-- The append step of the multi-record loop (structscan.go:166-171):
the freshly populated `*struct` is dereferenced when the declared element
kind matches the pointee's kind, else the pointer itself is appended. -/
def wrapElem {α : Type} (elemT : GoType) (v : GoVal α) : GoVal α :=
  if v.kind = Kind.ptrK ∧ v.elemKind = elemT.kind then elemOf v else v

/-- The column values a row carries (`[]` for a failing row; only used
under hypotheses that exclude failing rows). -/
def RowData.valsOf {α : Type} : RowData α → List α
  | .vals xs => xs
  | .scanFailure _ => []

/-- Sample destination struct type for concrete instances, modelling
`type test struct { ID string; SomeData string; OptData *string }` with
tags `id`, `some_data`, `opt_data`. -/
def testStructT : GoType :=
  .structOf "pgxscan.test"
    [.scalarT "string", .scalarT "string", .ptrTo (.scalarT "string")]

/-- Sample resolver behaviour for `testStructT`: the three known tags map
to the three fields, anything else to the empty path. -/
def testResolve : GoType → List String → List (List Nat) := fun _ cols =>
  cols.map (fun c =>
    if c = "id" then [0]
    else if c = "some_data" then [1]
    else if c = "opt_data" then [2]
    else [])

/-- Sample mapper instance for concrete witnesses. -/
def testMapper : Mapper :=
  ⟨testResolve, by intro t cols; simp [testResolve]⟩

/-! ## Helper lemmas -/

theorem GoVal.kind_ptr {α : Type} (o : Option (GoVal α)) :
    (GoVal.ptr o).kind = Kind.ptrK := rfl

theorem GoVal.elemKind_some {α : Type} (v : GoVal α) :
    (GoVal.ptr (some v)).elemKind = v.kind := rfl

theorem GoType.elem_ptrTo (t : GoType) : (GoType.ptrTo t).elem = t := rfl

theorem GoType.elem_sliceOf (t : GoType) : (GoType.sliceOf t).elem = t := rfl

theorem fieldsByTraversal_not_struct {α : Type} {destT : GoType}
    {v : GoVal α} (trs : List (List Nat))
    (h : (indirectVal v).kind ≠ Kind.structK) :
    fieldsByTraversal destT v trs = .error .notAStruct := by
  unfold fieldsByTraversal
  rw [if_pos h]

theorem missingFields_lt {l : List (List Nat)} {f : Nat}
    (h : missingFields l = some f) : f < l.length := by
  induction l generalizing f with
  | nil => simp [missingFields] at h
  | cons t rest ih =>
    simp only [missingFields] at h
    split at h
    · cases h
      simp
    · rcases Option.map_eq_some'.mp h with ⟨g, hg, rfl⟩
      have := ih hg
      simp
      omega

theorem ScanStruct_closes {α : Type} [Inhabited α] (m : Mapper)
    (destT : GoType) (dest : GoVal α) (r : Cursor α) :
    (ScanStruct m destT dest r).closes = 1 := by
  unfold ScanStruct
  repeat' split
  all_goals rfl

theorem ScanFlat_closes {α : Type} [Inhabited α] (dest : GoVal α)
    (r : Cursor α) : (ScanFlat dest r).closes = 1 := by
  unfold ScanFlat
  repeat' split
  all_goals rfl

theorem ScanStructs_closes {α : Type} [Inhabited α] (m : Mapper)
    (destT : GoType) (dest : GoVal α) (r : Cursor α) :
    (ScanStructs m destT dest r).closes = 1 := by
  unfold ScanStructs
  repeat' split
  all_goals rfl

theorem kind_structK_elim (t : GoType) (h : t.kind = Kind.structK) :
    ∃ nm fs, t = GoType.structOf nm fs := by
  cases t with
  | ptrTo t2 => exact absurd h (by simp [GoType.kind])
  | structOf nm fs => exact ⟨nm, fs, rfl⟩
  | sliceOf t2 => exact absurd h (by simp [GoType.kind])
  | scalarT nm => exact absurd h (by simp [GoType.kind])

theorem fieldsByTraversal_ok {α : Type} (destT : GoType) (v : GoVal α)
    (trs : List (List Nat)) (h : (indirectVal v).kind = Kind.structK) :
    fieldsByTraversal destT v trs = .ok (trs.map (buildTarget destT)) := by
  unfold fieldsByTraversal
  rw [if_neg (by simp [h])]

theorem append_wrap {α : Type} (elemT : GoType) (v : GoVal α)
    (acc : List (GoVal α)) :
    (if v.kind = Kind.ptrK ∧ v.elemKind = elemT.kind then acc ++ [elemOf v]
     else acc ++ [v]) = acc ++ [wrapElem elemT v] := by
  unfold wrapElem
  split <;> rfl

theorem structsLoop_cons_good {α : Type} [Inhabited α] (m : Mapper)
    (rcols cols : List String) (elemT structT : GoType)
    (acc : List (GoVal α)) (xs : List α) (rest : List (RowData α))
    (hst : structT.kind = Kind.structK) (hc : cols.length ≠ 0)
    (hx : xs.length = cols.length) :
    structsLoop m rcols elemT structT cols acc (.vals xs :: rest) =
      ⟨(structsLoop m rcols elemT structT cols
          (acc ++ [wrapElem elemT (decodeRowStruct m structT cols xs)]) rest).out,
       (structsLoop m rcols elemT structT cols
          (acc ++ [wrapElem elemT (decodeRowStruct m structT cols xs)]) rest).rowsRead + 1,
       (structsLoop m rcols elemT structT cols
          (acc ++ [wrapElem elemT (decodeRowStruct m structT cols xs)]) rest).decodes + 1⟩ := by
  have hind : (indirectVal (GoVal.ptr (some (GoType.zero structT)) : GoVal α)).kind
      = Kind.structK := by
    obtain ⟨nm, fs, rfl⟩ := kind_structK_elim structT hst
    simp [indirectVal, GoType.zero, GoVal.kind]
  have hft := fieldsByTraversal_ok (GoType.ptrTo structT)
    (GoVal.ptr (some (GoType.zero structT)) : GoVal α)
    (m.fn (GoType.ptrTo structT) cols) hind
  have hlen : xs.length = ((m.fn (GoType.ptrTo structT) cols).map
      (buildTarget (GoType.ptrTo structT))).length := by
    simp [m.len_eq, hx]
  simp only [structsLoop]
  rw [if_neg (by simp [GoVal.kind])]
  rw [if_neg (by simp [GoVal.isNil])]
  rw [if_neg hc]
  dsimp only
  rw [hft]
  dsimp only
  simp only [structScan]
  rw [if_pos hlen]
  dsimp only
  rw [append_wrap]
  rfl

theorem structsLoop_all_good {α : Type} [Inhabited α] (m : Mapper)
    (rcols cols : List String) (elemT structT : GoType)
    (hst : structT.kind = Kind.structK) (hc : cols.length ≠ 0)
    (rows : List (RowData α))
    (hrows : ∀ row ∈ rows, ∃ xs, row = RowData.vals xs ∧ xs.length = cols.length)
    (acc : List (GoVal α)) :
    structsLoop m rcols elemT structT cols acc rows =
      ⟨.ok (acc ++ rows.map (fun row =>
          wrapElem elemT (decodeRowStruct m structT cols row.valsOf))),
       rows.length, rows.length⟩ := by
  induction rows generalizing acc with
  | nil => simp [structsLoop]
  | cons row rest ih =>
    obtain ⟨xs, rfl, hx⟩ := hrows row (by simp)
    rw [structsLoop_cons_good m rcols cols elemT structT acc xs rest hst hc hx]
    rw [ih (fun r hr => hrows r (by simp [hr]))]
    simp [RowData.valsOf]

theorem structsLoop_failrow {α : Type} [Inhabited α] (m : Mapper)
    (rcols cols : List String) (elemT structT : GoType)
    (hst : structT.kind = Kind.structK) (hc : cols.length ≠ 0)
    (good : List (RowData α))
    (hgood : ∀ row ∈ good, ∃ xs, row = RowData.vals xs ∧ xs.length = cols.length)
    (e : String) (more : List (RowData α)) (acc : List (GoVal α)) :
    structsLoop m rcols elemT structT cols acc
        (good ++ RowData.scanFailure e :: more) =
      ⟨.error (.decode e), good.length + 1, good.length + 1⟩ := by
  induction good generalizing acc with
  | nil =>
    have hind : (indirectVal (GoVal.ptr (some (GoType.zero structT)) : GoVal α)).kind
        = Kind.structK := by
      obtain ⟨nm, fs, rfl⟩ := kind_structK_elim structT hst
      simp [indirectVal, GoType.zero, GoVal.kind]
    have hft := fieldsByTraversal_ok (GoType.ptrTo structT)
      (GoVal.ptr (some (GoType.zero structT)) : GoVal α)
      (m.fn (GoType.ptrTo structT) cols) hind
    simp only [List.nil_append, structsLoop]
    rw [if_neg (by simp [GoVal.kind])]
    rw [if_neg (by simp [GoVal.isNil])]
    rw [if_neg hc]
    dsimp only
    rw [hft]
    rfl
  | cons row rest ih =>
    obtain ⟨xs, rfl, hx⟩ := hgood row (by simp)
    rw [List.cons_append,
      structsLoop_cons_good m rcols cols elemT structT acc xs
        (rest ++ RowData.scanFailure e :: more) hst hc hx]
    rw [ih (fun r hr => hgood r (by simp [hr]))]
    simp

theorem structsLoop_resolve {α : Type} [Inhabited α] (m : Mapper)
    (rcols : List String) (elemT structT : GoType)
    (hmf : missingFields (m.fn (.ptrTo structT) rcols) = none)
    (rows : List (RowData α)) (acc : List (GoVal α)) :
    structsLoop m rcols elemT structT [] acc rows =
      structsLoop m rcols elemT structT rcols acc rows := by
  cases rows with
  | nil => rfl
  | cons row rest =>
    have hmeta : rowMetadata m rcols (GoType.ptrTo structT) = .ok rcols := by
      simp only [rowMetadata]
      rw [hmf]
    have h1 : (if ([] : List String).length = 0
        then rowMetadata m rcols (GoType.ptrTo structT)
        else .ok ([] : List String)) = .ok rcols := by
      simp [hmeta]
    have h2 : (if rcols.length = 0
        then rowMetadata m rcols (GoType.ptrTo structT)
        else .ok rcols) = .ok rcols := by
      by_cases hr : rcols.length = 0
      · simp [hr, hmeta]
      · simp [hr]
    simp only [structsLoop]
    rw [h1, h2]

theorem flatLoop_all_good {α : Type} (good : List α)
    (acc : List (GoVal α)) :
    flatLoop (good.map (fun x => RowData.vals [x])) acc =
      ⟨.ok (acc ++ good.map GoVal.scalar), good.length, good.length⟩ := by
  induction good generalizing acc with
  | nil => simp [flatLoop]
  | cons x rest ih =>
    simp only [List.map_cons, flatLoop, flatDecode]
    rw [ih]
    simp

theorem flatLoop_failrow {α : Type} (good : List α) (e : String)
    (more : List (RowData α)) (acc : List (GoVal α)) :
    flatLoop ((good.map (fun x => RowData.vals [x]))
        ++ RowData.scanFailure e :: more) acc =
      ⟨.error (.rowParse e), good.length + 1, good.length + 1⟩ := by
  induction good generalizing acc with
  | nil => simp [flatLoop, flatDecode]
  | cons x rest ih =>
    simp only [List.map_cons, List.cons_append, flatLoop, flatDecode,
      List.append_eq]
    rw [ih]
    simp

/-! ## Claim theorems -/

/-- C6: for every invocation of each of the three scan modes and every
exit path — success, no rows, invalid destination, missing column, decode
error, cursor error (and even the runtime panic of a nil multi-record
destination, through Go's deferred-call unwinding) — the cursor's release
operation runs exactly once before the call returns. -/
theorem C6_release_exactly_once :
    (∀ (m : Mapper) (destT : GoType) (dest : GoVal Int) (r : Cursor Int),
      (ScanStruct m destT dest r).closes = 1) ∧
    (∀ (dest : GoVal Int) (r : Cursor Int), (ScanFlat dest r).closes = 1) ∧
    (∀ (m : Mapper) (destT : GoType) (dest : GoVal Int) (r : Cursor Int),
      (ScanStructs m destT dest r).closes = 1) :=
  ⟨fun m destT dest r => ScanStruct_closes m destT dest r,
   fun dest r => ScanFlat_closes dest r,
   fun m destT dest r => ScanStructs_closes m destT dest r⟩

/-- C3: a single-record scan over a cursor with zero rows and no sticky
error returns the distinguished `pgx.ErrNoRows` condition — not a generic
error — leaves the destination untouched, and closes the cursor exactly
once. -/
theorem C3_no_rows_single {α : Type} [Inhabited α] (m : Mapper)
    (destT : GoType) (dest : GoVal α) (r : Cursor α)
    (hdest : dest.kind = Kind.ptrK ∧ dest.isNil = false)
    (hrows : r.rows = []) (herr : r.finalErr = none) :
    ScanStruct m destT dest r = ⟨.err .noRows, dest, 1, 0, 0⟩ := by
  unfold ScanStruct
  rw [hrows]
  simp [hdest.1, hdest.2, herr]

/-- Witness for C3 at a concrete cursor and destination. -/
theorem C3_no_rows_single_witness :
    ScanStruct testMapper (.ptrTo testStructT)
        (GoVal.ptr (some (GoType.zero testStructT)) : GoVal String)
        ⟨["id"], [], none⟩ =
      ⟨.err .noRows, .ptr (some (GoType.zero testStructT)), 1, 0, 0⟩ :=
  C3_no_rows_single testMapper (.ptrTo testStructT) _ _ ⟨rfl, rfl⟩ rfl rfl

/-- C8: in single-record mode the cursor is advanced exactly once; the
outcome (status, populated destination and all counters) depends only on
the first row — the remaining rows and the sticky error state are never
consulted. -/
theorem C8_single_reads_first_row_only {α : Type} [Inhabited α]
    (m : Mapper) (destT : GoType) (v : GoVal α) (cols : List String)
    (row : RowData α) (rest rest' : List (RowData α))
    (e e' : Option String) :
    ScanStruct m destT (.ptr (some v)) ⟨cols, row :: rest, e⟩ =
      ScanStruct m destT (.ptr (some v)) ⟨cols, row :: rest', e'⟩ ∧
    (ScanStruct m destT (.ptr (some v)) ⟨cols, row :: rest, e⟩).rowsRead = 1 := by
  constructor
  · rfl
  · unfold ScanStruct
    repeat' split
    all_goals first | rfl | simp_all [GoVal.kind, GoVal.isNil]

/-- C2 (amended): for every scan with at least one available row whose
reported column list contains a name with no matching field tag (an empty
traversal), both single-record and multi-record mode abort before any row
is decoded, and the error names the offending column (the first one with
an empty traversal, a valid index into the column list) and the
destination type. -/
theorem C2_missing_column_aborts :
    (∀ (m : Mapper) (destT : GoType) (v : GoVal Int) (cols : List String)
       (row : RowData Int) (rest : List (RowData Int)) (ferr : Option String)
       (f : Nat), missingFields (m.fn destT cols) = some f →
      f < cols.length ∧
      ScanStruct m destT (.ptr (some v)) ⟨cols, row :: rest, ferr⟩ =
        ⟨.err (.missingColumn (cols.getD f "") destT.name),
         .ptr (some v), 1, 1, 0⟩) ∧
    (∀ (m : Mapper) (elemT : GoType) (dest : GoVal Int) (cols : List String)
       (row : RowData Int) (rest : List (RowData Int)) (ferr : Option String)
       (f : Nat),
      missingFields (m.fn
        (.ptrTo (if elemT.kind = Kind.ptrK then elemT.elem else elemT))
        cols) = some f →
      f < cols.length ∧
      ScanStructs m (.ptrTo (.sliceOf elemT)) dest ⟨cols, row :: rest, ferr⟩ =
        ⟨.err (.missingColumn (cols.getD f "")
           (GoType.ptrTo
             (if elemT.kind = Kind.ptrK then elemT.elem else elemT)).name),
         dest, 1, 1, 0⟩) := by
  constructor
  · intro m destT v cols row rest ferr f hmf
    refine ⟨by have := missingFields_lt hmf; rwa [m.len_eq] at this, ?_⟩
    unfold ScanStruct rowMetadata
    simp [GoVal.kind, GoVal.isNil, hmf]
  · intro m elemT dest cols row rest ferr f hmf
    refine ⟨by have := missingFields_lt hmf; rwa [m.len_eq] at this, ?_⟩
    unfold ScanStructs
    rw [if_neg (by simp [GoType.kind, GoType.elem])]
    rw [GoType.elem_ptrTo, GoType.elem_sliceOf]
    simp only [structsLoop, rowMetadata]
    simp [GoVal.kind, GoVal.isNil, hmf]

/-- Witness for C2: a concrete single-record scan whose column list holds
the unmatched name `"nope"`. -/
theorem C2_missing_column_aborts_witness :
    missingFields (testMapper.fn (.ptrTo testStructT) ["id", "nope"]) = some 1 ∧
    ScanStruct testMapper (.ptrTo testStructT)
        (.ptr (some (GoType.zero testStructT)) : GoVal Int)
        ⟨["id", "nope"], [.vals [1, 2]], none⟩ =
      ⟨.err (.missingColumn "nope" "*pgxscan.test"),
       .ptr (some (GoType.zero testStructT)), 1, 1, 0⟩ :=
  ⟨by decide,
   (C2_missing_column_aborts.1 testMapper (.ptrTo testStructT)
     (GoType.zero testStructT) ["id", "nope"] (.vals [1, 2]) [] none 1
     (by decide)).2⟩

/-- Counterexample to C2 as stated: a multi-record scan over a result
with zero rows whose column list contains the unmatched name `"nope"`
does NOT abort — it succeeds and installs the empty slice. -/
theorem C2_missing_column_aborts_cex :
    missingFields (testMapper.fn (.ptrTo testStructT) ["nope"]) = some 0 ∧
    ScanStructs testMapper (.ptrTo (.sliceOf testStructT))
        (.ptr (some .sliceNil) : GoVal Int) ⟨["nope"], [], none⟩ =
      ⟨.ok, .ptr (some (.sliceV [])), 1, 0, 0⟩ :=
  ⟨by decide, rfl⟩

/-- C9: `fieldsByTraversal` on an (indirected) struct value produces
exactly one target per access path, in the same order: an empty path
yields the discard target, a path to a pointer-kind leaf yields the field
location itself, and any other path yields the field's address.  (The
function is pure on the target list: it does not touch any destination
container.) -/
theorem C9_target_construction {α : Type} (destT : GoType) (v : GoVal α)
    (trs : List (List Nat)) (h : (indirectVal v).kind = Kind.structK) :
    ∃ targets, fieldsByTraversal destT v trs = .ok targets ∧
      targets.length = trs.length ∧
      ∀ i, i < trs.length →
        targets.getD i .discard =
          (if (trs.getD i []).length = 0 then Target.discard
           else if (typeAtPath destT (trs.getD i [])).kind = Kind.ptrK then
             Target.fieldLoc (trs.getD i [])
           else Target.fieldAddr (trs.getD i [])) := by
  refine ⟨trs.map (buildTarget destT), ?_, by simp, ?_⟩
  · unfold fieldsByTraversal
    simp [h]
  · intro i hi
    have h1 : trs[i]? = some trs[i] := List.getElem?_eq_getElem hi
    simp [List.getD_eq_getElem?_getD, List.getElem?_map, h1, buildTarget]

/-- Witness for C9 at a concrete struct destination and three concrete
paths (empty, scalar leaf, pointer leaf). -/
theorem C9_target_construction_witness :
    ∃ targets,
      fieldsByTraversal (.ptrTo testStructT)
          (.ptr (some (GoType.zero testStructT)) : GoVal Int)
          [[], [0], [2]] = .ok targets ∧
      targets.length = ([[], [0], [2]] : List (List Nat)).length ∧
      ∀ i, i < ([[], [0], [2]] : List (List Nat)).length →
        targets.getD i .discard =
          (if (([[], [0], [2]] : List (List Nat)).getD i []).length = 0 then
             Target.discard
           else if (typeAtPath (.ptrTo testStructT)
               (([[], [0], [2]] : List (List Nat)).getD i [])).kind
               = Kind.ptrK then
             Target.fieldLoc (([[], [0], [2]] : List (List Nat)).getD i [])
           else
             Target.fieldAddr (([[], [0], [2]] : List (List Nat)).getD i [])) :=
  C9_target_construction (.ptrTo testStructT)
    (.ptr (some (GoType.zero testStructT))) [[], [0], [2]] rfl

/-- C7 (amended): a non-reference destination is rejected immediately in
every mode with no row read; a nil reference is rejected immediately in
single-record and flat modes; a container kind not matching the mode is
rejected immediately in flat and multi-record modes; a single-record
destination whose pointee is not a struct is reported as an error only
after advancing to the first row, still with no row decoded; and a nil
reference in multi-record mode is NOT rejected — once the row loop
completes, the final store into the destination panics. -/
theorem C7_destination_shape {α : Type} [Inhabited α] :
    (∀ (m : Mapper) (destT : GoType) (dest : GoVal α) (r : Cursor α),
      dest.kind ≠ Kind.ptrK →
      ScanStruct m destT dest r = ⟨.err .notAPointer, dest, 1, 0, 0⟩) ∧
    (∀ (m : Mapper) (destT : GoType) (r : Cursor α),
      ScanStruct m destT (.ptr none) r =
        ⟨.err .nilPointer, .ptr none, 1, 0, 0⟩) ∧
    (∀ (dest : GoVal α) (r : Cursor α),
      ¬(dest.kind = Kind.ptrK ∧ dest.elemKind = Kind.sliceK) →
      ScanFlat dest r = ⟨.err .invalidFlatDest, dest, 1, 0, 0⟩) ∧
    (∀ (m : Mapper) (destT : GoType) (dest : GoVal α) (r : Cursor α),
      ¬(destT.kind = Kind.ptrK ∧ destT.elem.kind = Kind.sliceK) →
      ScanStructs m destT dest r =
        ⟨.err (.expectedPtrToSlice destT.name), dest, 1, 0, 0⟩) ∧
    (∀ (m : Mapper) (destT : GoType) (w : GoVal α) (cols : List String)
       (row : RowData α) (rest : List (RowData α)) (ferr : Option String),
      w.kind ≠ Kind.structK →
      ∃ e, ScanStruct m destT (.ptr (some w)) ⟨cols, row :: rest, ferr⟩ =
        ⟨.err e, .ptr (some w), 1, 1, 0⟩) ∧
    (∀ (m : Mapper) (elemT : GoType) (r : Cursor α)
       (acc : List (GoVal α)) (rr dc : Nat),
      structsLoop m r.cols elemT
          (if elemT.kind = Kind.ptrK then elemT.elem else elemT)
          [] [] r.rows = ⟨.ok acc, rr, dc⟩ →
      ScanStructs m (.ptrTo (.sliceOf elemT)) (.ptr none) r =
        ⟨.panicked "reflect: call of reflect.Value.Set on zero Value",
         .ptr none, 1, rr, dc⟩) := by
  refine ⟨?_, ?_, ?_, ?_, ?_, ?_⟩
  · intro m destT dest r h
    unfold ScanStruct
    rw [if_pos h]
  · intro m destT r
    unfold ScanStruct
    simp [GoVal.kind, GoVal.isNil]
  · intro dest r h
    unfold ScanFlat
    rw [if_pos h]
  · intro m destT dest r h
    unfold ScanStructs
    rw [if_pos h]
  · intro m destT w cols row rest ferr hw
    cases hmf : missingFields (m.fn destT cols) with
    | some f =>
      refine ⟨.missingColumn (cols.getD f "") destT.name, ?_⟩
      unfold ScanStruct rowMetadata
      simp [GoVal.kind, GoVal.isNil, hmf]
    | none =>
      refine ⟨.notAStruct, ?_⟩
      have hft : fieldsByTraversal destT (GoVal.ptr (some w))
          (m.fn destT cols) = .error .notAStruct :=
        fieldsByTraversal_not_struct _ (by simpa [indirectVal] using hw)
      unfold ScanStruct rowMetadata
      simp [GoVal.kind, GoVal.isNil, hmf, hft]
  · intro m elemT r acc rr dc hloop
    unfold ScanStructs
    rw [if_neg (by simp [GoType.kind, GoType.elem])]
    rw [GoType.elem_ptrTo, GoType.elem_sliceOf, hloop]

/-- Witness for C7 at concrete inputs: a non-pointer destination is
rejected in single-record mode, and the nil multi-record destination
reaches the panic after an empty row loop. -/
theorem C7_destination_shape_witness :
    ScanStruct testMapper (.ptrTo testStructT) (.structV [] : GoVal Int)
        ⟨["id"], [], none⟩ =
      ⟨.err .notAPointer, .structV [], 1, 0, 0⟩ ∧
    ScanStructs testMapper (.ptrTo (.sliceOf testStructT))
        (.ptr none : GoVal Int) ⟨["id"], [], none⟩ =
      ⟨.panicked "reflect: call of reflect.Value.Set on zero Value",
       .ptr none, 1, 0, 0⟩ :=
  ⟨(C7_destination_shape (α := Int)).1 testMapper (.ptrTo testStructT)
     (.structV []) ⟨["id"], [], none⟩ (by decide),
   (C7_destination_shape (α := Int)).2.2.2.2.2 testMapper testStructT
     ⟨["id"], [], none⟩ [] 0 0 rfl⟩

/-- Counterexample to C7 as stated: a nil slice reference handed to the
multi-record mode does not cause any returned error — the call ends in a
runtime panic instead. -/
theorem C7_destination_shape_cex :
    (ScanStructs testMapper (.ptrTo (.sliceOf testStructT))
        (.ptr none : GoVal String) ⟨["id"], [], none⟩).status =
      .panicked "reflect: call of reflect.Value.Set on zero Value" ∧
    ∀ e, (ScanStructs testMapper (.ptrTo (.sliceOf testStructT))
        (.ptr none : GoVal String) ⟨["id"], [], none⟩).status ≠
      Status.err e := by
  refine ⟨rfl, ?_⟩
  intro e h
  exact Status.noConfusion h

/-- C1 (amended): in multi-record mode every error path that is not the
end-of-iteration cursor error — a row's decode error, a missing column,
an invalid shape — aborts returning that error with the destination
container unmodified (later rows unread); but when the cursor reports an
error at end of iteration, that error is returned only AFTER the
destination has been replaced with the records accumulated so far. -/
theorem C1_multi_error_dest :
    (∀ (m : Mapper) (destT : GoType) (dest : GoVal Int) (r : Cursor Int)
       (e : ScanError),
      (ScanStructs m destT dest r).status = .err e →
      (∀ s, e ≠ .cursorIter s) →
      (ScanStructs m destT dest r).dest = dest) ∧
    (∀ (m : Mapper) (elemT structT : GoType) (dest : GoVal Int)
       (cols : List String) (good more : List (RowData Int)) (e : String)
       (ferr : Option String),
      structT = (if elemT.kind = Kind.ptrK then elemT.elem else elemT) →
      structT.kind = Kind.structK → cols ≠ [] →
      missingFields (m.fn (.ptrTo structT) cols) = none →
      (∀ row ∈ good, ∃ xs, row = RowData.vals xs ∧ xs.length = cols.length) →
      ScanStructs m (.ptrTo (.sliceOf elemT)) dest
          ⟨cols, good ++ RowData.scanFailure e :: more, ferr⟩ =
        ⟨.err (.decode e), dest, 1, good.length + 1, good.length + 1⟩) ∧
    (∀ (m : Mapper) (elemT : GoType) (d0 : GoVal Int) (r : Cursor Int)
       (acc : List (GoVal Int)) (rr dc : Nat) (e : String),
      structsLoop m r.cols elemT
          (if elemT.kind = Kind.ptrK then elemT.elem else elemT)
          [] [] r.rows = ⟨.ok acc, rr, dc⟩ →
      r.finalErr = some e →
      ScanStructs m (.ptrTo (.sliceOf elemT)) (.ptr (some d0)) r =
        ⟨.err (.cursorIter e), .ptr (some (.sliceV acc)), 1, rr, dc⟩) := by
  refine ⟨?_, ?_, ?_⟩
  · intro m destT dest r e h hne
    unfold ScanStructs at h ⊢
    by_cases hsh : ¬(destT.kind = Kind.ptrK ∧ destT.elem.kind = Kind.sliceK)
    · rw [if_pos hsh]
    · rw [if_neg hsh] at h ⊢
      rcases hfl : structsLoop m r.cols destT.elem.elem
          (if destT.elem.elem.kind = Kind.ptrK then destT.elem.elem.elem
           else destT.elem.elem) [] [] r.rows with ⟨out, rr, dc⟩
      rw [hfl] at h
      cases out with
      | error e2 => rfl
      | ok acc =>
        cases dest with
        | ptr o =>
          cases o with
          | some d0 =>
            cases hfe : r.finalErr with
            | some s =>
              rw [hfe] at h
              have h2 : Status.err (ScanError.cursorIter s) = Status.err e := h
              injection h2 with h3
              exact absurd h3.symm (hne s)
            | none =>
              rw [hfe] at h
              have h2 : Status.ok = Status.err e := h
              exact Status.noConfusion h2
          | none => rfl
        | structV fs => rfl
        | sliceV es => rfl
        | sliceNil => rfl
        | scalar a => rfl
  · intro m elemT structT dest cols good more e ferr hT hst hcols hmf hgood
    unfold ScanStructs
    rw [if_neg (by simp [GoType.kind, GoType.elem])]
    rw [GoType.elem_ptrTo, GoType.elem_sliceOf, ← hT]
    rw [structsLoop_resolve m cols elemT structT hmf]
    rw [structsLoop_failrow m cols cols elemT structT hst
      (fun h => hcols (List.length_eq_zero.mp h)) good hgood e more []]
  · intro m elemT d0 r acc rr dc e hloop hfe
    unfold ScanStructs
    rw [if_neg (by simp [GoType.kind, GoType.elem])]
    rw [GoType.elem_ptrTo, GoType.elem_sliceOf, hloop]
    dsimp only
    rw [hfe]
    exact rfl

/-- Witness for C1: a concrete decode error on the first (and only)
row aborts with that error and leaves the caller's slice untouched. -/
theorem C1_multi_error_dest_witness :
    ScanStructs testMapper (.ptrTo (.sliceOf testStructT))
        (.ptr (some (.sliceV [.scalar (37 : Int)])))
        ⟨["id"], [RowData.scanFailure "bad value"], none⟩ =
      ⟨.err (.decode "bad value"), .ptr (some (.sliceV [.scalar 37])),
       1, 1, 1⟩ :=
  C1_multi_error_dest.2.1 testMapper testStructT testStructT
    (.ptr (some (.sliceV [.scalar 37]))) ["id"] [] [] "bad value" none
    rfl rfl (by decide) (by decide)
    (fun row hr => absurd hr (List.not_mem_nil row))

/-- Counterexample to C1 as stated: with a sticky cursor error and zero
decoded rows, the error is returned but the destination container has
been replaced (the caller's element 37 is gone), so it is NOT left
unmodified on this cursor error path. -/
theorem C1_multi_error_dest_cex :
    ScanStructs testMapper (.ptrTo (.sliceOf testStructT))
        (.ptr (some (.sliceV [.scalar (37 : Int)])))
        ⟨["id"], [], some "boom"⟩ =
      ⟨.err (.cursorIter "boom"), .ptr (some (.sliceV [])), 1, 0, 0⟩ ∧
    GoVal.ptr (some (GoVal.sliceV ([] : List (GoVal Int)))) ≠
      GoVal.ptr (some (GoVal.sliceV [GoVal.scalar (37 : Int)])) :=
  ⟨rfl, by simp⟩

/-- C5 (amended): in flat mode the decoded values accumulate in a local
sequence; a row decode error aborts immediately with the destination left
unset; but when the loop completes and the cursor reports an error at end
of iteration, the local sequence is stored into the destination BEFORE
that error is returned — the destination is not left unset on that
path. -/
theorem C5_flat_commit :
    (∀ (dest : GoVal Int) (r : Cursor Int) (e : ScanError),
      (ScanFlat dest r).status = .err e →
      (∀ s, e ≠ .cursorIter s) →
      (ScanFlat dest r).dest = dest) ∧
    (∀ (s : GoVal Int) (cols : List String) (good : List Int) (e : String)
       (more : List (RowData Int)) (ferr : Option String),
      s.kind = Kind.sliceK →
      ScanFlat (.ptr (some s))
          ⟨cols, good.map (fun x => RowData.vals [x])
                   ++ RowData.scanFailure e :: more, ferr⟩ =
        ⟨.err (.rowParse e), .ptr (some s), 1,
         good.length + 1, good.length + 1⟩) ∧
    (∀ (s : GoVal Int) (cols : List String) (good : List Int) (e : String),
      s.kind = Kind.sliceK →
      ScanFlat (.ptr (some s))
          ⟨cols, good.map (fun x => RowData.vals [x]), some e⟩ =
        ⟨.err (.cursorIter e),
         .ptr (some (.sliceV (good.map GoVal.scalar))),
         1, good.length, good.length⟩) := by
  refine ⟨?_, ?_, ?_⟩
  · intro dest r e h hne
    unfold ScanFlat at h ⊢
    by_cases hsh : ¬(dest.kind = Kind.ptrK ∧ dest.elemKind = Kind.sliceK)
    · rw [if_pos hsh]
    · rw [if_neg hsh] at h ⊢
      rcases hfl : flatLoop r.rows ([] : List (GoVal Int)) with ⟨out, rr, dc⟩
      rw [hfl] at h
      cases out with
      | error e2 => rfl
      | ok acc =>
        cases hfe : r.finalErr with
        | some s =>
          rw [hfe] at h
          have h2 : Status.err (ScanError.cursorIter s) = Status.err e := h
          injection h2 with h3
          exact absurd h3.symm (hne s)
        | none =>
          rw [hfe] at h
          have h2 : Status.ok = Status.err e := h
          exact Status.noConfusion h2
  · intro s cols good e more ferr hs
    unfold ScanFlat
    rw [if_neg (by simp [GoVal.kind_ptr, GoVal.elemKind_some, hs])]
    rw [flatLoop_failrow good e more []]
  · intro s cols good e hs
    unfold ScanFlat
    rw [if_neg (by simp [GoVal.kind_ptr, GoVal.elemKind_some, hs])]
    rw [flatLoop_all_good good []]
    dsimp only
    simp [setElem]

/-- Witness for C5: a concrete flat scan whose only row fails to decode
returns the wrapped parse error and leaves the destination untouched. -/
theorem C5_flat_commit_witness :
    ScanFlat (.ptr (some .sliceNil) : GoVal Int)
        ⟨["n"], [RowData.scanFailure "oops"], none⟩ =
      ⟨.err (.rowParse "oops"), .ptr (some .sliceNil), 1, 1, 1⟩ :=
  C5_flat_commit.2.1 .sliceNil ["n"] [] "oops" [] none rfl

/-- Counterexample to C5 as stated: with an end-of-iteration cursor
error the destination is NOT left unset — it receives the accumulated
value 5 before the error is returned. -/
theorem C5_flat_commit_cex :
    ScanFlat (.ptr (some .sliceNil) : GoVal Int)
        ⟨["n"], [RowData.vals [5]], some "conn reset"⟩ =
      ⟨.err (.cursorIter "conn reset"),
       .ptr (some (.sliceV [.scalar 5])), 1, 1, 1⟩ ∧
    GoVal.ptr (some (GoVal.sliceV [GoVal.scalar (5 : Int)])) ≠
      GoVal.ptr (some (GoVal.sliceNil : GoVal Int)) :=
  ⟨rfl, by simp⟩

/-- C10: both multi-record and flat scans over a cursor with zero rows
and no sticky error succeed and replace the destination container's
contents with the empty, non-nil sequence (`reflect.MakeSlice(_, 0, 0)`),
discarding whatever the caller's slice previously held. -/
theorem C10_zero_rows_empty_slice {α : Type} [Inhabited α] :
    (∀ (m : Mapper) (elemT : GoType) (d0 : GoVal α) (cols : List String),
      ScanStructs m (.ptrTo (.sliceOf elemT)) (.ptr (some d0))
          ⟨cols, [], none⟩ =
        ⟨.ok, .ptr (some (.sliceV [])), 1, 0, 0⟩) ∧
    (∀ (s : GoVal α) (cols : List String), s.kind = Kind.sliceK →
      ScanFlat (.ptr (some s)) ⟨cols, [], none⟩ =
        ⟨.ok, .ptr (some (.sliceV [])), 1, 0, 0⟩) ∧
    GoVal.sliceV ([] : List (GoVal α)) ≠ GoVal.sliceNil := by
  refine ⟨?_, ?_, by simp⟩
  · intro m elemT d0 cols
    unfold ScanStructs
    rw [if_neg (by simp [GoType.kind, GoType.elem])]
    rfl
  · intro s cols hs
    unfold ScanFlat
    rw [if_neg (by simp [GoVal.kind_ptr, GoVal.elemKind_some, hs])]
    rfl

/-- Witness for C10: a caller slice that previously held an element is
replaced by the empty slice in both modes. -/
theorem C10_zero_rows_empty_slice_witness :
    ScanStructs testMapper (.ptrTo (.sliceOf testStructT))
        (.ptr (some (.sliceV [.scalar (9 : Int)])) : GoVal Int)
        ⟨["id"], [], none⟩ =
      ⟨.ok, .ptr (some (.sliceV [])), 1, 0, 0⟩ ∧
    ScanFlat (.ptr (some (.sliceV [.scalar (3 : Int)])) : GoVal Int)
        ⟨["n"], [], none⟩ =
      ⟨.ok, .ptr (some (.sliceV [])), 1, 0, 0⟩ :=
  ⟨(C10_zero_rows_empty_slice (α := Int)).1 testMapper testStructT
     (.sliceV [.scalar 9]) ["id"],
   (C10_zero_rows_empty_slice (α := Int)).2.1 (.sliceV [.scalar 3])
     ["n"] rfl⟩

/-- C4: a successful multi-record scan preserves cursor row order — the
destination receives exactly one element per row, in cursor order, each
equal to the fresh instance populated from that row's decoded values
(dereferenced or kept as a reference according to the declared element
kind). -/
theorem C4_multi_preserves_row_order {α : Type} [Inhabited α] (m : Mapper)
    (elemT structT : GoType) (d0 : GoVal α) (cols : List String)
    (rows : List (RowData α))
    (hT : structT = if elemT.kind = Kind.ptrK then elemT.elem else elemT)
    (hst : structT.kind = Kind.structK) (hcols : cols ≠ [])
    (hmf : missingFields (m.fn (.ptrTo structT) cols) = none)
    (hrows : ∀ row ∈ rows,
      ∃ xs, row = RowData.vals xs ∧ xs.length = cols.length) :
    ScanStructs m (.ptrTo (.sliceOf elemT)) (.ptr (some d0))
        ⟨cols, rows, none⟩ =
      ⟨.ok,
       .ptr (some (.sliceV (rows.map (fun row =>
         wrapElem elemT (decodeRowStruct m structT cols row.valsOf))))),
       1, rows.length, rows.length⟩ := by
  unfold ScanStructs
  rw [if_neg (by simp [GoType.kind, GoType.elem])]
  rw [GoType.elem_ptrTo, GoType.elem_sliceOf, ← hT]
  rw [structsLoop_resolve m cols elemT structT hmf]
  rw [structsLoop_all_good m cols cols elemT structT hst
    (fun h => hcols (List.length_eq_zero.mp h)) rows hrows []]
  dsimp only
  simp [setElem]

/-- Witness for C4: two concrete rows `("x","foo")` then `("y","bar")`
produce the two-element slice in exactly that order. -/
theorem C4_multi_preserves_row_order_witness :
    ScanStructs testMapper (.ptrTo (.sliceOf testStructT))
        (.ptr (some .sliceNil) : GoVal String)
        ⟨["id", "some_data"],
         [RowData.vals ["x", "foo"], RowData.vals ["y", "bar"]], none⟩ =
      ⟨.ok,
       .ptr (some (.sliceV
         ([RowData.vals ["x", "foo"], RowData.vals ["y", "bar"]].map
           (fun row => wrapElem testStructT
             (decodeRowStruct testMapper testStructT ["id", "some_data"]
               row.valsOf))))),
       1, 2, 2⟩ ∧
    ([RowData.vals ["x", "foo"], RowData.vals ["y", "bar"]].map
       (fun row => wrapElem testStructT
         (decodeRowStruct testMapper testStructT ["id", "some_data"]
           (RowData.valsOf row))) : List (GoVal String)) =
      [.structV [.scalar "x", .scalar "foo", .ptr none],
       .structV [.scalar "y", .scalar "bar", .ptr none]] :=
  ⟨C4_multi_preserves_row_order testMapper testStructT testStructT
     .sliceNil ["id", "some_data"]
     [RowData.vals ["x", "foo"], RowData.vals ["y", "bar"]]
     rfl rfl (by simp) rfl
     (by
       intro row hr
       simp only [List.mem_cons, List.not_mem_nil, or_false] at hr
       rcases hr with rfl | rfl
       · exact ⟨_, rfl, rfl⟩
       · exact ⟨_, rfl, rfl⟩),
   rfl⟩

end Pgxscan
